import Mathlib

/-!
Clementine network remote: address policy and server lifecycle.

A shallow embedding of `src/networkremote/networkremote.cpp`.

* C++ `int` is a 32-bit two's-complement integer, embedded as `Int` with the
  explicit wrap `wrapInt32` wherever a conversion or an addition can leave the
  range.
* `quint32` addresses are `Nat` values below `2 ^ 32`.
* Qt objects (`QTcpServer`, `QTcpSocket`, the signal/slot connection table) are
  plain records; every member function becomes a function on the record.
-/

namespace Clementine

/-! ## Machine integers -/

/-- Reduction of an integer to the 32-bit two's-complement range
`-2^31 .. 2^31 - 1` (conversion to `int`, and `int` arithmetic). -/
def wrapInt32 (z : Int) : Int :=
  (z + 2147483648) % 4294967296 - 2147483648

/-- Conversion of a `quint32` value to `int`, as happens when the result of
`toIPv4Address()` is passed to a parameter or stored in a local of type `int`. -/
def toInt32 (u : Nat) : Int :=
  wrapInt32 (Int.ofNat (u % 4294967296))

/-! ## Addresses -/

/-- A `QHostAddress`: an IPv4 address (32 bits) or an IPv6 address (128 bits). -/
inductive QHostAddress where
  | ipv4 (a : Nat)
  | ipv6 (a : Nat)
  deriving DecidableEq

/-- The address written in dotted-quad form, `QHostAddress("a.b.c.d")`. -/
def dotted (a b c d : Nat) : QHostAddress :=
  QHostAddress.ipv4 (((a * 256 + b) * 256 + c) * 256 + d)

/-- Qt's `QHostAddress::toIPv4Address()`: the address as a `quint32`; zero when the
address is not an IPv4 address. -/
def QHostAddress.toIPv4Address : QHostAddress → Nat
  | QHostAddress.ipv4 a => a % 4294967296
  | QHostAddress.ipv6 _ => 0

/-- Source function `NetworkRemote::IpIsPrivate(int ip)`. The four bases are `quint32` values
stored into `int` locals; the upper bounds are `int` additions. -/
def NetworkRemote.IpIsPrivate (ip : Int) : Bool :=
  let private_local := toInt32 (dotted 127 0 0 1).toIPv4Address
  let private_a := toInt32 (dotted 10 0 0 0).toIPv4Address
  let private_b := toInt32 (dotted 172 16 0 0).toIPv4Address
  let private_c := toInt32 (dotted 192 168 0 0).toIPv4Address
  if ip == private_local
      || (decide (ip ≥ private_a) && decide (ip < wrapInt32 (private_a + 16777216)))
      || (decide (ip ≥ private_b) && decide (ip < wrapInt32 (private_b + 1048576)))
      || (decide (ip ≥ private_c) && decide (ip < wrapInt32 (private_c + 65536))) then
    true
  else
    false

/-- The same four checks carried out on the unsigned 32-bit values, with no
conversion to `int`: the reference the signed code is compared with. -/
def NetworkRemote.IpIsPrivateUnsigned (u : Nat) : Bool :=
  let private_local := (dotted 127 0 0 1).toIPv4Address
  let private_a := (dotted 10 0 0 0).toIPv4Address
  let private_b := (dotted 172 16 0 0).toIPv4Address
  let private_c := (dotted 192 168 0 0).toIPv4Address
  u == private_local
    || (decide (u ≥ private_a) && decide (u < private_a + 16777216))
    || (decide (u ≥ private_b) && decide (u < private_b + 1048576))
    || (decide (u ≥ private_c) && decide (u < private_c + 65536))

/-- True when an integer is representable as a 32-bit `int`. -/
def inInt32 (z : Int) : Prop :=
  -2147483648 ≤ z ∧ z ≤ 2147483647

instance (z : Int) : Decidable (inInt32 z) := by
  unfold inInt32; infer_instance

/-! ## Qt objects -/

/-- A `QTcpSocket`: the peer it is connected to, and whether it is still open
(`true` for every socket a listener hands out; `false` once `close()` has
been called on it). -/
structure QTcpSocket where
  peerAddress : QHostAddress
  isOpen : Bool
  deriving DecidableEq

/-- A `QTcpServer`. `pendingConnections` is the queue behind
`hasPendingConnections()` / `nextPendingConnection()`; `children` are the
sockets already returned by `nextPendingConnection()`, which stay owned by the
server object (Qt creates them as its children). -/
structure QTcpServer where
  isListening : Bool
  pendingConnections : List QTcpSocket
  children : List QTcpSocket
  deriving DecidableEq

/-- A server object as created by `new QTcpServer()`. -/
def QTcpServer.new : QTcpServer :=
  { isListening := false, pendingConnections := [], children := [] }

/-- Qt's `QTcpServer::listen(address, port)`. `bound` is the outcome of binding the
address and port in the operating system. A server that is already listening
refuses the call and stays as it is. -/
def QTcpServer.listen (srv : QTcpServer) (bound : Bool) : QTcpServer :=
  if srv.isListening then srv else { srv with isListening := bound }

/-- Qt's `QTcpServer::close()`: stops listening and deletes the connections still
pending. -/
def QTcpServer.close (srv : QTcpServer) : QTcpServer :=
  { srv with isListening := false, pendingConnections := [] }

/-- Qt's `QTcpServer::hasPendingConnections()`. -/
def QTcpServer.hasPendingConnections (srv : QTcpServer) : Bool :=
  !srv.pendingConnections.isEmpty

/-- Qt's `QTcpServer::nextPendingConnection()`: the next pending socket, or null
(`none`) when there is none. -/
def QTcpServer.nextPendingConnection (srv : QTcpServer) : Option QTcpSocket × QTcpServer :=
  match srv.pendingConnections with
  | [] => (none, srv)
  | sock :: rest =>
    (some sock, { srv with pendingConnections := rest, children := srv.children ++ [sock] })

/-- An inbound TCP connection attempt reaching a listener: queued when the
server is listening, refused otherwise. -/
def QTcpServer.incomingConnection (srv : QTcpServer) (sock : QTcpSocket) : QTcpServer :=
  if srv.isListening then
    { srv with pendingConnections := srv.pendingConnections ++ [sock] }
  else srv

/-- The `connect(sender, SIGNAL, receiver, SLOT)` calls of networkremote.cpp,
one constructor per call site. `connect` is called with the default connection
type, so connecting the same pair again adds a second connection. -/
inductive Connection where
  | ArtLoaded_CurrentSongChanged
  | server_newConnection_AcceptConnection
  | server_ipv6_newConnection_AcceptConnection
  | SendClementineInfos
  | SendFirstData
  | SendAllPlaylists
  | SendPlaylistSongs
  | ActiveChanged
  | PlaylistChanged
  | VolumeChanged
  | StateChanged
  | client_Parse
  deriving DecidableEq

/-- The content of the `NetworkRemote` group of `QSettings`: each key is absent
or holds a value of its type. -/
structure QSettings where
  use_remote : Option Bool
  port : Option Int
  only_non_public_ip : Option Bool
  deriving DecidableEq

/-- The expression `s.value(key).toBool()`: an absent key yields an invalid `QVariant`, whose
`toBool()` is `false`. -/
def QSettings.valueToBool (v : Option Bool) : Bool :=
  v.getD false

/-- The expression `s.value(key).toInt()`: an absent key yields an invalid `QVariant`, whose
`toInt()` is `0`. -/
def QSettings.valueToInt (v : Option Int) : Int :=
  v.getD 0

/-- The expression `s.contains(key)`. -/
def QSettings.contains {α : Type} (v : Option α) : Bool :=
  v.isSome

/-- Modelled from the spec: the class `RemoteClient` (remoteclient.h/.cpp) is
not among the sources; the spec describes a session as wrapping one accepted
connection. -/
structure RemoteClient where
  client_socket : QTcpSocket
  deriving DecidableEq

/-! ## The server object -/

/-- Modelled from the spec: the member declarations (networkremote.h) are not
among the sources; the fields are the members read or written in
networkremote.cpp, and `port_` is an `int` as in the spec's configuration
surface (`port: int`). `app_` records whether the `Application*` is non-null.
`connections` is the signal/slot connection table, in the order the `connect`
calls were made. -/
structure NetworkRemote where
  app_ : Bool
  server_ : QTcpServer
  server_ipv6_ : QTcpServer
  port_ : Int
  use_remote_ : Bool
  only_non_public_ip_ : Bool
  signals_connected_ : Bool
  clients_ : List RemoteClient
  connections : List Connection
  deriving DecidableEq

/-- The constant `NetworkRemote::kDefaultServerPort`. -/
def NetworkRemote.kDefaultServerPort : Int := 5500

/-- The constructor `NetworkRemote::NetworkRemote(Application* app)`. Only `app_` and
`signals_connected_` are initialised by the constructor; the other members get
their first value in `SetupServer` and `ReadSettings`. -/
def NetworkRemote.init (app : Bool) : NetworkRemote :=
  { app_ := app
    server_ := QTcpServer.new
    server_ipv6_ := QTcpServer.new
    port_ := 0
    use_remote_ := false
    only_non_public_ip_ := false
    signals_connected_ := false
    clients_ := []
    connections := [] }

/-- Source function `NetworkRemote::ReadSettings()`; `q` is the content of the
settings group. -/
def NetworkRemote.ReadSettings (q : QSettings) (s : NetworkRemote) : NetworkRemote :=
  let s := { s with use_remote_ := QSettings.valueToBool q.use_remote }
  let s := { s with port_ := QSettings.valueToInt q.port }
  let s :=
    if QSettings.contains q.only_non_public_ip then
      { s with only_non_public_ip_ := QSettings.valueToBool q.only_non_public_ip }
    else
      { s with only_non_public_ip_ := true }
  if s.port_ == 0 then
    { s with port_ := NetworkRemote.kDefaultServerPort }
  else s

/-- Source function `NetworkRemote::SetupServer()`. -/
def NetworkRemote.SetupServer (s : NetworkRemote) : NetworkRemote :=
  { s with
    server_ := QTcpServer.new
    server_ipv6_ := QTcpServer.new
    connections := s.connections ++ [Connection.ArtLoaded_CurrentSongChanged] }

/-- Source function `NetworkRemote::StartServer()`. `q` is the settings store read by
`ReadSettings`; `bound4` and `bound6` are the outcomes of binding the IPv4 and
the IPv6 wildcard address. -/
def NetworkRemote.StartServer (q : QSettings) (bound4 bound6 : Bool) (s : NetworkRemote) :
    NetworkRemote :=
  if !s.app_ then s
  else
    let s := NetworkRemote.ReadSettings q s
    if !s.use_remote_ then s
    else
      let s := { s with connections := s.connections ++
        [Connection.server_newConnection_AcceptConnection] }
      let s := { s with connections := s.connections ++
        [Connection.server_ipv6_newConnection_AcceptConnection] }
      let s := { s with server_ := s.server_.listen bound4 }
      { s with server_ipv6_ := s.server_ipv6_.listen bound6 }

/-- Source function `NetworkRemote::StopServer()`. -/
def NetworkRemote.StopServer (s : NetworkRemote) : NetworkRemote :=
  if s.server_.isListening then
    { s with
      server_ := s.server_.close
      server_ipv6_ := s.server_ipv6_.close
      clients_ := [] }
  else s

/-- Source function `NetworkRemote::ReloadSettings()`. -/
def NetworkRemote.ReloadSettings (q : QSettings) (bound4 bound6 : Bool) (s : NetworkRemote) :
    NetworkRemote :=
  NetworkRemote.StartServer q bound4 bound6 (NetworkRemote.StopServer s)

/-- Source function `NetworkRemote::CreateRemoteClient(QTcpSocket* client_socket)`;
a null pointer is `none`. -/
def NetworkRemote.CreateRemoteClient (client_socket : Option QTcpSocket) (s : NetworkRemote) :
    NetworkRemote :=
  match client_socket with
  | some sock =>
    { s with
      clients_ := s.clients_ ++ [{ client_socket := sock }]
      connections := s.connections ++ [Connection.client_Parse] }
  | none => s

/-- The eight connections made inside the `signals_connected_` guard of
`AcceptConnection`, in source order. -/
def NetworkRemote.wiring : List Connection :=
  [ Connection.SendClementineInfos, Connection.SendFirstData,
    Connection.SendAllPlaylists, Connection.SendPlaylistSongs,
    Connection.ActiveChanged, Connection.PlaylistChanged,
    Connection.VolumeChanged, Connection.StateChanged ]

/-- Source function `NetworkRemote::AcceptConnection()`. -/
def NetworkRemote.AcceptConnection (s : NetworkRemote) : NetworkRemote :=
  let s :=
    if !s.signals_connected_ then
      { s with
        signals_connected_ := true
        connections := s.connections ++ NetworkRemote.wiring }
    else s
  if s.server_.hasPendingConnections then
    match s.server_.nextPendingConnection with
    | (some client_socket, srv) =>
      let s := { s with server_ := srv }
      if s.only_non_public_ip_
          && !NetworkRemote.IpIsPrivate (toInt32 client_socket.peerAddress.toIPv4Address) then
        -- only a log line
        s
      else
        NetworkRemote.CreateRemoteClient (some client_socket) s
    | (none, srv) =>
      -- not reached: hasPendingConnections() was true
      { s with server_ := srv }
  else
    match s.server_ipv6_.nextPendingConnection with
    | (client_socket, srv) =>
      NetworkRemote.CreateRemoteClient client_socket { s with server_ipv6_ := srv }

/-! ## Call sequences -/

/-- The calls made on one `NetworkRemote` object after `SetupServer`, together
with the inbound connection attempts of the environment (`v6` selects the
listener the attempt reaches). -/
inductive Call where
  | StartServer (q : QSettings) (bound4 bound6 : Bool)
  | StopServer
  | ReloadSettings (q : QSettings) (bound4 bound6 : Bool)
  | AcceptConnection
  | inbound (v6 : Bool) (sock : QTcpSocket)
  deriving DecidableEq

/-- The effect of one call. -/
def NetworkRemote.step (s : NetworkRemote) : Call → NetworkRemote
  | Call.StartServer q b4 b6 => NetworkRemote.StartServer q b4 b6 s
  | Call.StopServer => NetworkRemote.StopServer s
  | Call.ReloadSettings q b4 b6 => NetworkRemote.ReloadSettings q b4 b6 s
  | Call.AcceptConnection => NetworkRemote.AcceptConnection s
  | Call.inbound false sock => { s with server_ := s.server_.incomingConnection sock }
  | Call.inbound true sock => { s with server_ipv6_ := s.server_ipv6_.incomingConnection sock }

/-- The effect of a sequence of calls, first to last. -/
def NetworkRemote.run (cs : List Call) (s : NetworkRemote) : NetworkRemote :=
  cs.foldl NetworkRemote.step s

/-- How many times the slot `AcceptConnection` runs for one emission of the
given listener's `newConnection()` signal: once per registered connection. -/
def NetworkRemote.acceptRegistrations (s : NetworkRemote) (v6 : Bool) : Nat :=
  s.connections.count
    (if v6 then Connection.server_ipv6_newConnection_AcceptConnection
     else Connection.server_newConnection_AcceptConnection)

/-- A call that is either `AcceptConnection` or an inbound attempt. -/
def Call.isTraffic : Call → Bool
  | Call.AcceptConnection => true
  | Call.inbound _ _ => true
  | _ => false


/-! ## Sample data -/

/-- A socket as a listener hands it out: connected to `peer` and open. -/
def QTcpSocket.connected (peer : QHostAddress) : QTcpSocket :=
  { peerAddress := peer, isOpen := true }

/-- Settings with the remote enabled and the other keys absent. -/
def QSettings.enabled : QSettings :=
  { use_remote := some true, port := none, only_non_public_ip := none }

/-- Settings with the remote disabled and the other keys absent. -/
def QSettings.disabled : QSettings :=
  { use_remote := some false, port := none, only_non_public_ip := none }

/-- The object after construction with an application and `SetupServer`. -/
def NetworkRemote.fresh : NetworkRemote :=
  NetworkRemote.SetupServer (NetworkRemote.init true)

/-- A listener that is not listening and has nothing pending. -/
def QTcpServer.idle (srv : QTcpServer) : Prop :=
  srv.isListening = false ∧ srv.pendingConnections = []

instance (srv : QTcpServer) : Decidable srv.idle := by
  unfold QTcpServer.idle; infer_instance

/-- A running server (both listeners bound, settings read with the restriction
at its default) with one connection from 8.8.8.8 pending on the IPv4
listener. -/
def NetworkRemote.publicPending : NetworkRemote :=
  NetworkRemote.run
    [Call.StartServer QSettings.enabled true true,
     Call.inbound false (QTcpSocket.connected (dotted 8 8 8 8))]
    NetworkRemote.fresh

/-- A running server with one connection from an IPv6 peer pending on the IPv6
listener and nothing pending on the IPv4 listener. -/
def NetworkRemote.ipv6Pending : NetworkRemote :=
  NetworkRemote.run
    [Call.StartServer QSettings.enabled true true,
     Call.inbound true (QTcpSocket.connected (QHostAddress.ipv6 1))]
    NetworkRemote.fresh

/-- The server after the IPv4 bind failed and the IPv6 bind succeeded, with one
session registered through the IPv6 listener. -/
def NetworkRemote.ipv6Only : NetworkRemote :=
  NetworkRemote.run
    [Call.StartServer QSettings.enabled false true,
     Call.inbound true (QTcpSocket.connected (QHostAddress.ipv6 1)),
     Call.AcceptConnection]
    NetworkRemote.fresh

/-! ## Address policy -/

theorem toInt32_eq (u : Nat) (h : u < 4294967296) :
    toInt32 u = if u < 2147483648 then (u : Int) else (u : Int) - 4294967296 := by
  unfold toInt32 wrapInt32
  rw [Nat.mod_eq_of_lt h]
  simp only [Int.ofNat_eq_coe]
  split <;> omega

theorem IpIsPrivate_toInt32 (u : Nat) (h : u < 4294967296) :
    NetworkRemote.IpIsPrivate (toInt32 u) = true ↔
      (u = 2130706433 ∨ (167772160 ≤ u ∧ u < 184549376)
        ∨ (2886729728 ≤ u ∧ u < 2887778304) ∨ (3232235520 ≤ u ∧ u < 3232301056)) := by
  rw [toInt32_eq u h]
  have e1 : toInt32 (dotted 127 0 0 1).toIPv4Address = 2130706433 := by decide
  have e2 : toInt32 (dotted 10 0 0 0).toIPv4Address = 167772160 := by decide
  have e3 : toInt32 (dotted 172 16 0 0).toIPv4Address = -1408237568 := by decide
  have e4 : toInt32 (dotted 192 168 0 0).toIPv4Address = -1062731776 := by decide
  have s2 : wrapInt32 (167772160 + 16777216) = 184549376 := by decide
  have s3 : wrapInt32 (-1408237568 + 1048576) = -1407188992 := by decide
  have s4 : wrapInt32 (-1062731776 + 65536) = -1062666240 := by decide
  simp only [NetworkRemote.IpIsPrivate, e1, e2, e3, e4, s2, s3, s4]
  simp only [Bool.if_true_left, Bool.or_false, Bool.or_eq_true, Bool.and_eq_true, beq_iff_eq,
    decide_eq_true_eq, ite_eq_left_iff]
  split <;> omega

theorem IpIsPrivateUnsigned_iff (u : Nat) :
    NetworkRemote.IpIsPrivateUnsigned u = true ↔
      (u = 2130706433 ∨ (167772160 ≤ u ∧ u < 184549376)
        ∨ (2886729728 ≤ u ∧ u < 2887778304) ∨ (3232235520 ≤ u ∧ u < 3232301056)) := by
  have e1 : (dotted 127 0 0 1).toIPv4Address = 2130706433 := by decide
  have e2 : (dotted 10 0 0 0).toIPv4Address = 167772160 := by decide
  have e3 : (dotted 172 16 0 0).toIPv4Address = 2886729728 := by decide
  have e4 : (dotted 192 168 0 0).toIPv4Address = 3232235520 := by decide
  simp only [NetworkRemote.IpIsPrivateUnsigned, e1, e2, e3, e4]
  simp only [Bool.or_eq_true, Bool.and_eq_true, beq_iff_eq, decide_eq_true_eq]
  omega

/-- C1: for every 32-bit address `a`, `IpIsPrivate` (called through its `int`
parameter) answers true exactly when `a` is 127.0.0.1 or lies in
10.0.0.0..10.255.255.255, 172.16.0.0..172.31.255.255 or
192.168.0.0..192.168.255.255, bounds included; the listed sample addresses are
classified accordingly. -/
theorem IpIsPrivate_iff_private_ranges (a : Nat) (h : a < 4294967296) :
    (NetworkRemote.IpIsPrivate (toInt32 a) = true ↔
      (a = (dotted 127 0 0 1).toIPv4Address
        ∨ ((dotted 10 0 0 0).toIPv4Address ≤ a ∧ a ≤ (dotted 10 255 255 255).toIPv4Address)
        ∨ ((dotted 172 16 0 0).toIPv4Address ≤ a ∧ a ≤ (dotted 172 31 255 255).toIPv4Address)
        ∨ ((dotted 192 168 0 0).toIPv4Address ≤ a
            ∧ a ≤ (dotted 192 168 255 255).toIPv4Address)))
    ∧ NetworkRemote.IpIsPrivate (toInt32 (dotted 10 0 0 0).toIPv4Address) = true
    ∧ NetworkRemote.IpIsPrivate (toInt32 (dotted 172 31 255 255).toIPv4Address) = true
    ∧ NetworkRemote.IpIsPrivate (toInt32 (dotted 192 168 255 255).toIPv4Address) = true
    ∧ NetworkRemote.IpIsPrivate (toInt32 (dotted 11 0 0 0).toIPv4Address) = false
    ∧ NetworkRemote.IpIsPrivate (toInt32 (dotted 172 32 0 0).toIPv4Address) = false
    ∧ NetworkRemote.IpIsPrivate (toInt32 (dotted 192 169 0 0).toIPv4Address) = false
    ∧ NetworkRemote.IpIsPrivate (toInt32 (dotted 127 0 0 2).toIPv4Address) = false
    ∧ NetworkRemote.IpIsPrivate (toInt32 (dotted 8 8 8 8).toIPv4Address) = false := by
  refine ⟨?_, by decide, by decide, by decide, by decide, by decide, by decide, by decide,
    by decide⟩
  rw [IpIsPrivate_toInt32 a h]
  have e1 : (dotted 127 0 0 1).toIPv4Address = 2130706433 := by decide
  have e2 : (dotted 10 0 0 0).toIPv4Address = 167772160 := by decide
  have e3 : (dotted 172 16 0 0).toIPv4Address = 2886729728 := by decide
  have e4 : (dotted 192 168 0 0).toIPv4Address = 3232235520 := by decide
  have f2 : (dotted 10 255 255 255).toIPv4Address = 184549375 := by decide
  have f3 : (dotted 172 31 255 255).toIPv4Address = 2887778303 := by decide
  have f4 : (dotted 192 168 255 255).toIPv4Address = 3232301055 := by decide
  rw [e1, e2, e3, e4, f2, f3, f4]
  omega

theorem IpIsPrivate_iff_private_ranges_witness :
    (NetworkRemote.IpIsPrivate (toInt32 3232235781) = true ↔
      (3232235781 = (dotted 127 0 0 1).toIPv4Address
        ∨ ((dotted 10 0 0 0).toIPv4Address ≤ 3232235781
            ∧ 3232235781 ≤ (dotted 10 255 255 255).toIPv4Address)
        ∨ ((dotted 172 16 0 0).toIPv4Address ≤ 3232235781
            ∧ 3232235781 ≤ (dotted 172 31 255 255).toIPv4Address)
        ∨ ((dotted 192 168 0 0).toIPv4Address ≤ 3232235781
            ∧ 3232235781 ≤ (dotted 192 168 255 255).toIPv4Address))) :=
  (IpIsPrivate_iff_private_ranges 3232235781 (by decide)).1

/-- C10: converted to `int`, 127.0.0.1 and 10.0.0.0 are positive and 172.16.0.0
and 192.168.0.0 are negative; the three upper-bound sums stay inside the
32-bit `int` range (so the `int` addition returns the exact sum); each range
lies on one side of the sign boundary; and for every 32-bit input the signed
checks of `IpIsPrivate` agree with the unsigned range checks. -/
theorem IpIsPrivate_signed_agrees_unsigned (u : Nat) (h : u < 4294967296) :
    0 < toInt32 (dotted 127 0 0 1).toIPv4Address
    ∧ 0 < toInt32 (dotted 10 0 0 0).toIPv4Address
    ∧ toInt32 (dotted 172 16 0 0).toIPv4Address < 0
    ∧ toInt32 (dotted 192 168 0 0).toIPv4Address < 0
    ∧ inInt32 (toInt32 (dotted 10 0 0 0).toIPv4Address + 16777216)
    ∧ inInt32 (toInt32 (dotted 172 16 0 0).toIPv4Address + 1048576)
    ∧ inInt32 (toInt32 (dotted 192 168 0 0).toIPv4Address + 65536)
    ∧ wrapInt32 (toInt32 (dotted 10 0 0 0).toIPv4Address + 16777216)
        = toInt32 (dotted 10 0 0 0).toIPv4Address + 16777216
    ∧ wrapInt32 (toInt32 (dotted 172 16 0 0).toIPv4Address + 1048576)
        = toInt32 (dotted 172 16 0 0).toIPv4Address + 1048576
    ∧ wrapInt32 (toInt32 (dotted 192 168 0 0).toIPv4Address + 65536)
        = toInt32 (dotted 192 168 0 0).toIPv4Address + 65536
    ∧ 0 < toInt32 (dotted 10 0 0 0).toIPv4Address + 16777216 - 1
    ∧ toInt32 (dotted 172 16 0 0).toIPv4Address + 1048576 - 1 < 0
    ∧ toInt32 (dotted 192 168 0 0).toIPv4Address + 65536 - 1 < 0
    ∧ NetworkRemote.IpIsPrivate (toInt32 u) = NetworkRemote.IpIsPrivateUnsigned u := by
  refine ⟨by decide, by decide, by decide, by decide, by decide, by decide, by decide,
    by decide, by decide, by decide, by decide, by decide, by decide, ?_⟩
  rw [Bool.eq_iff_iff, IpIsPrivate_toInt32 u h, IpIsPrivateUnsigned_iff u]

theorem IpIsPrivate_signed_agrees_unsigned_witness :
    NetworkRemote.IpIsPrivate (toInt32 2886729728)
      = NetworkRemote.IpIsPrivateUnsigned 2886729728 :=
  (IpIsPrivate_signed_agrees_unsigned 2886729728 (by decide)).2.2.2.2.2.2.2.2.2.2.2.2.2

/-! ## Settings -/

theorem ReadSettings_fields (q : QSettings) (s : NetworkRemote) :
    NetworkRemote.ReadSettings q s =
      { s with
        use_remote_ := q.use_remote.getD false
        port_ := if q.port.getD 0 = 0 then 5500 else q.port.getD 0
        only_non_public_ip_ := q.only_non_public_ip.getD true } := by
  obtain ⟨u, p, o⟩ := q
  cases u <;> cases p <;> cases o <;>
    simp [NetworkRemote.ReadSettings, QSettings.valueToBool, QSettings.valueToInt,
      QSettings.contains, NetworkRemote.kDefaultServerPort] <;>
    split <;> simp_all

/-- C6: `ReadSettings` sets `use_remote_` to the stored value, or false when
the key is absent; `port_` to 5500 when the stored port is absent or zero and
to the stored port otherwise; `only_non_public_ip_` to the stored value, or
true when the key is absent. -/
theorem ReadSettings_defaults (q : QSettings) (s : NetworkRemote) :
    (NetworkRemote.ReadSettings q s).use_remote_
        = (match q.use_remote with | some b => b | none => false)
    ∧ (NetworkRemote.ReadSettings q s).port_
        = (match q.port with
           | none => 5500
           | some p => if p = 0 then 5500 else p)
    ∧ (NetworkRemote.ReadSettings q s).only_non_public_ip_
        = (match q.only_non_public_ip with | some b => b | none => true) := by
  rw [ReadSettings_fields]
  obtain ⟨u, p, o⟩ := q
  cases u <;> cases p <;> cases o <;> simp

theorem StartServer_fields (q : QSettings) (b4 b6 : Bool) (s : NetworkRemote) :
    NetworkRemote.StartServer q b4 b6 s =
      if s.app_ = false then s
      else if q.use_remote.getD false = false then NetworkRemote.ReadSettings q s
      else
        { NetworkRemote.ReadSettings q s with
          connections := s.connections ++
            [Connection.server_newConnection_AcceptConnection,
             Connection.server_ipv6_newConnection_AcceptConnection]
          server_ := s.server_.listen b4
          server_ipv6_ := s.server_ipv6_.listen b6 } := by
  unfold NetworkRemote.StartServer
  cases ha : s.app_
  · simp
  · cases hu : q.use_remote.getD false <;> simp [ReadSettings_fields, hu]

/-! ## Accepting connections -/

theorem AcceptConnection_ipv4 (s : NetworkRemote) (sock : QTcpSocket) (rest : List QTcpSocket)
    (h : s.server_.pendingConnections = sock :: rest) :
    (NetworkRemote.AcceptConnection s).clients_ =
        (if s.only_non_public_ip_
            && !NetworkRemote.IpIsPrivate (toInt32 sock.peerAddress.toIPv4Address)
         then s.clients_ else s.clients_ ++ [{ client_socket := sock }])
    ∧ (NetworkRemote.AcceptConnection s).server_ =
        { s.server_ with pendingConnections := rest, children := s.server_.children ++ [sock] }
    ∧ (NetworkRemote.AcceptConnection s).server_ipv6_ = s.server_ipv6_ := by
  unfold NetworkRemote.AcceptConnection
  cases hc : s.signals_connected_ <;> cases hp : s.only_non_public_ip_ <;>
    cases hi : NetworkRemote.IpIsPrivate (toInt32 sock.peerAddress.toIPv4Address) <;>
    simp [QTcpServer.hasPendingConnections, QTcpServer.nextPendingConnection, h, hc, hp, hi,
      NetworkRemote.CreateRemoteClient]

theorem AcceptConnection_ipv6 (s : NetworkRemote) (h : s.server_.pendingConnections = []) :
    (NetworkRemote.AcceptConnection s).clients_ =
        (match s.server_ipv6_.pendingConnections with
         | [] => s.clients_
         | sock :: _ => s.clients_ ++ [{ client_socket := sock }])
    ∧ (NetworkRemote.AcceptConnection s).server_ = s.server_
    ∧ (NetworkRemote.AcceptConnection s).server_ipv6_ =
        (s.server_ipv6_.nextPendingConnection).2 := by
  unfold NetworkRemote.AcceptConnection
  cases hc : s.signals_connected_ <;> cases h6 : s.server_ipv6_.pendingConnections <;>
    simp [QTcpServer.hasPendingConnections, QTcpServer.nextPendingConnection, h, hc, h6,
      NetworkRemote.CreateRemoteClient]

/-- C2: when `AcceptConnection` handles a pending connection of the IPv4
listener, a session for it is appended to the client set if and only if
`only_non_public_ip_` is false or the peer address is private; otherwise the
client set is unchanged. So 8.8.8.8 gets a session only when the restriction is
off, and 192.168.1.5 always gets one. -/
theorem AcceptConnection_session_iff_allowed (s : NetworkRemote) (sock : QTcpSocket)
    (rest : List QTcpSocket) (h : s.server_.pendingConnections = sock :: rest) :
    ((NetworkRemote.AcceptConnection s).clients_ = s.clients_ ++ [{ client_socket := sock }]
        ↔ (s.only_non_public_ip_ = false
            ∨ NetworkRemote.IpIsPrivate (toInt32 sock.peerAddress.toIPv4Address) = true))
    ∧ ((NetworkRemote.AcceptConnection s).clients_ = s.clients_
        ↔ ¬ (s.only_non_public_ip_ = false
            ∨ NetworkRemote.IpIsPrivate (toInt32 sock.peerAddress.toIPv4Address) = true))
    ∧ (sock.peerAddress = dotted 8 8 8 8 →
        (NetworkRemote.AcceptConnection s).clients_ =
          if s.only_non_public_ip_ then s.clients_
          else s.clients_ ++ [{ client_socket := sock }])
    ∧ (sock.peerAddress = dotted 192 168 1 5 →
        (NetworkRemote.AcceptConnection s).clients_
          = s.clients_ ++ [{ client_socket := sock }]) := by
  have key := (AcceptConnection_ipv4 s sock rest h).1
  refine ⟨?_, ?_, ?_, ?_⟩
  · rw [key]
    cases hp : s.only_non_public_ip_ <;>
      cases hi : NetworkRemote.IpIsPrivate (toInt32 sock.peerAddress.toIPv4Address) <;> simp
  · rw [key]
    cases hp : s.only_non_public_ip_ <;>
      cases hi : NetworkRemote.IpIsPrivate (toInt32 sock.peerAddress.toIPv4Address) <;> simp
  · intro ha
    have hi : NetworkRemote.IpIsPrivate (toInt32 (dotted 8 8 8 8).toIPv4Address) = false := by
      decide
    rw [key, ha, hi]
    cases hp : s.only_non_public_ip_ <;> simp
  · intro ha
    have hi : NetworkRemote.IpIsPrivate (toInt32 (dotted 192 168 1 5).toIPv4Address) = true := by
      decide
    rw [key, ha, hi]
    simp

/-- C7: when the IPv4 listener has nothing pending and the IPv6 listener has a
pending connection, `AcceptConnection` appends exactly one session for that
connection, whatever the peer address and whatever `only_non_public_ip_`. -/
theorem AcceptConnection_ipv6_unconditional (s : NetworkRemote) (sock : QTcpSocket)
    (rest : List QTcpSocket) (h4 : s.server_.pendingConnections = [])
    (h6 : s.server_ipv6_.pendingConnections = sock :: rest) :
    (NetworkRemote.AcceptConnection s).clients_ = s.clients_ ++ [{ client_socket := sock }]
    ∧ (NetworkRemote.AcceptConnection s).clients_.length = s.clients_.length + 1
    ∧ (NetworkRemote.AcceptConnection s).server_ipv6_.pendingConnections = rest := by
  obtain ⟨hc, -, hs⟩ := AcceptConnection_ipv6 s h4
  rw [h6] at hc
  refine ⟨hc, ?_, ?_⟩
  · rw [hc]; simp
  · rw [hs]; simp [QTcpServer.nextPendingConnection, h6]

/-- C3 (as amended): when `AcceptConnection` rejects a pending IPv4 connection
under the address policy, no session is created and the client set is
unchanged; the socket leaves the pending queue and stays with the listener
exactly as it was accepted: the handler does not close it. -/
theorem AcceptConnection_rejected_not_closed (s : NetworkRemote) (sock : QTcpSocket)
    (rest : List QTcpSocket) (h : s.server_.pendingConnections = sock :: rest)
    (hr : s.only_non_public_ip_ = true)
    (hp : NetworkRemote.IpIsPrivate (toInt32 sock.peerAddress.toIPv4Address) = false) :
    (NetworkRemote.AcceptConnection s).clients_ = s.clients_
    ∧ (NetworkRemote.AcceptConnection s).server_.pendingConnections = rest
    ∧ (NetworkRemote.AcceptConnection s).server_.children = s.server_.children ++ [sock]
    ∧ ((NetworkRemote.AcceptConnection s).server_.children.getLast?).map QTcpSocket.isOpen
        = some sock.isOpen := by
  obtain ⟨hc, hs, -⟩ := AcceptConnection_ipv4 s sock rest h
  rw [hr, hp] at hc
  refine ⟨by simpa using hc, by rw [hs], by rw [hs], ?_⟩
  rw [hs]; simp



theorem AcceptConnection_session_iff_allowed_witness :
    NetworkRemote.publicPending.server_.pendingConnections
        = [QTcpSocket.connected (dotted 8 8 8 8)]
    ∧ ((NetworkRemote.AcceptConnection NetworkRemote.publicPending).clients_
          = NetworkRemote.publicPending.clients_
        ↔ ¬ (NetworkRemote.publicPending.only_non_public_ip_ = false
            ∨ NetworkRemote.IpIsPrivate
                (toInt32 (QTcpSocket.connected (dotted 8 8 8 8)).peerAddress.toIPv4Address)
              = true)) :=
  ⟨by decide,
   (AcceptConnection_session_iff_allowed NetworkRemote.publicPending
      (QTcpSocket.connected (dotted 8 8 8 8)) [] (by decide)).2.1⟩

theorem AcceptConnection_ipv6_unconditional_witness :
    NetworkRemote.ipv6Pending.only_non_public_ip_ = true
    ∧ (NetworkRemote.AcceptConnection NetworkRemote.ipv6Pending).clients_
        = NetworkRemote.ipv6Pending.clients_
            ++ [{ client_socket := QTcpSocket.connected (QHostAddress.ipv6 1) }] :=
  ⟨by decide,
   (AcceptConnection_ipv6_unconditional NetworkRemote.ipv6Pending
      (QTcpSocket.connected (QHostAddress.ipv6 1)) [] (by decide) (by decide)).1⟩

theorem AcceptConnection_rejected_not_closed_witness :
    (NetworkRemote.AcceptConnection NetworkRemote.publicPending).clients_
        = NetworkRemote.publicPending.clients_
    ∧ ((NetworkRemote.AcceptConnection
          NetworkRemote.publicPending).server_.children.getLast?).map QTcpSocket.isOpen
        = some true :=
  ⟨(AcceptConnection_rejected_not_closed NetworkRemote.publicPending
      (QTcpSocket.connected (dotted 8 8 8 8)) [] (by decide) (by decide) (by decide)).1,
   (AcceptConnection_rejected_not_closed NetworkRemote.publicPending
      (QTcpSocket.connected (dotted 8 8 8 8)) [] (by decide) (by decide) (by decide)).2.2.2⟩

/-- C3 (as stated) fails: it is not true that every open socket rejected under
the address policy is closed when `AcceptConnection` returns. The connection
from 8.8.8.8 pending in `publicPending` is rejected and stays open. -/
theorem AcceptConnection_rejected_closed_fails :
    ¬ (∀ (s : NetworkRemote) (sock : QTcpSocket) (rest : List QTcpSocket),
        s.server_.pendingConnections = sock :: rest →
        s.only_non_public_ip_ = true →
        NetworkRemote.IpIsPrivate (toInt32 sock.peerAddress.toIPv4Address) = false →
        sock.isOpen = true →
        (NetworkRemote.AcceptConnection s).clients_ = s.clients_
        ∧ ((NetworkRemote.AcceptConnection s).server_.children.getLast?).map QTcpSocket.isOpen
            = some false) := by
  intro H
  have h := (H NetworkRemote.publicPending (QTcpSocket.connected (dotted 8 8 8 8)) []
    (by decide) (by decide) (by decide) (by decide)).2
  exact absurd h (by decide)

/-! ## Lifecycle -/

/-- C4 at the failing input: with the IPv4 listener not bound, the IPv6 listener
listening and one session registered, `StopServer` changes nothing: the IPv6
listener is still listening and the session is still in the client set. -/
theorem StopServer_skips_ipv6_only_server :
    NetworkRemote.ipv6Only.server_.isListening = false
    ∧ NetworkRemote.ipv6Only.server_ipv6_.isListening = true
    ∧ NetworkRemote.ipv6Only.clients_.length = 1
    ∧ (NetworkRemote.StopServer NetworkRemote.ipv6Only).server_ipv6_.isListening = true
    ∧ (NetworkRemote.StopServer NetworkRemote.ipv6Only).clients_.length = 1
    ∧ NetworkRemote.StopServer NetworkRemote.ipv6Only = NetworkRemote.ipv6Only := by
  decide

theorem StartServer_frame (q : QSettings) (b4 b6 : Bool) (s : NetworkRemote) :
    (NetworkRemote.StartServer q b4 b6 s).app_ = s.app_
    ∧ (NetworkRemote.StartServer q b4 b6 s).signals_connected_ = s.signals_connected_
    ∧ (NetworkRemote.StartServer q b4 b6 s).clients_ = s.clients_
    ∧ (NetworkRemote.StartServer q b4 b6 s).connections =
        s.connections ++
          (if s.app_ && q.use_remote.getD false then
            [Connection.server_newConnection_AcceptConnection,
             Connection.server_ipv6_newConnection_AcceptConnection]
           else []) := by
  rw [StartServer_fields]
  cases ha : s.app_ <;> cases hu : q.use_remote.getD false <;> simp [ReadSettings_fields, ha]

theorem StopServer_frame (s : NetworkRemote) :
    (NetworkRemote.StopServer s).app_ = s.app_
    ∧ (NetworkRemote.StopServer s).signals_connected_ = s.signals_connected_
    ∧ (NetworkRemote.StopServer s).connections = s.connections := by
  unfold NetworkRemote.StopServer
  cases h : s.server_.isListening <;> simp

/-- C9 at the failing input: after `StartServer` followed by `ReloadSettings`,
with `use_remote` enabled, `AcceptConnection` is registered twice on each
listener's `newConnection()` signal, whatever the bind outcomes and the other
settings. -/
theorem ReloadSettings_registers_handler_twice (port : Option Int) (o : Option Bool)
    (b4 b6 c4 c6 : Bool) :
    NetworkRemote.acceptRegistrations
        (NetworkRemote.run
          [Call.StartServer { use_remote := some true, port := port, only_non_public_ip := o }
             b4 b6,
           Call.ReloadSettings { use_remote := some true, port := port, only_non_public_ip := o }
             c4 c6]
          NetworkRemote.fresh) false = 2
    ∧ NetworkRemote.acceptRegistrations
        (NetworkRemote.run
          [Call.StartServer { use_remote := some true, port := port, only_non_public_ip := o }
             b4 b6,
           Call.ReloadSettings { use_remote := some true, port := port, only_non_public_ip := o }
             c4 c6]
          NetworkRemote.fresh) true = 2 := by
  simp only [NetworkRemote.run, List.foldl, NetworkRemote.step, NetworkRemote.ReloadSettings,
    NetworkRemote.acceptRegistrations]
  rw [(StartServer_frame _ c4 c6 _).2.2.2, (StopServer_frame _).1, (StopServer_frame _).2.2,
    (StartServer_frame _ b4 b6 _).1, (StartServer_frame _ b4 b6 _).2.2.2]
  simp [NetworkRemote.fresh, NetworkRemote.SetupServer, NetworkRemote.init]


/-! ## The one-time wiring latch -/

theorem count_wiring (w : Connection) (hw : w ∈ NetworkRemote.wiring) :
    NetworkRemote.wiring.count w = 1
    ∧ w ≠ Connection.client_Parse
    ∧ w ≠ Connection.server_newConnection_AcceptConnection
    ∧ w ≠ Connection.server_ipv6_newConnection_AcceptConnection
    ∧ w ≠ Connection.ArtLoaded_CurrentSongChanged := by
  simp only [NetworkRemote.wiring, List.mem_cons, List.mem_singleton, List.not_mem_nil,
    or_false] at hw
  rcases hw with rfl | rfl | rfl | rfl | rfl | rfl | rfl | rfl <;> decide

theorem AcceptConnection_connections (s : NetworkRemote) :
    (NetworkRemote.AcceptConnection s).signals_connected_ = true
    ∧ (NetworkRemote.AcceptConnection s).connections =
        s.connections ++ (if s.signals_connected_ then [] else NetworkRemote.wiring)
          ++ (if (NetworkRemote.AcceptConnection s).clients_.length = s.clients_.length then []
              else [Connection.client_Parse]) := by
  unfold NetworkRemote.AcceptConnection
  cases hc : s.signals_connected_ <;> cases h4 : s.server_.pendingConnections <;>
    cases hp : s.only_non_public_ip_ <;> cases h6 : s.server_ipv6_.pendingConnections <;>
    simp [QTcpServer.hasPendingConnections, QTcpServer.nextPendingConnection, h4, hc, hp, h6,
      NetworkRemote.CreateRemoteClient] <;>
    split <;> simp

theorem step_latch (s : NetworkRemote) (c : Call) :
    (NetworkRemote.step s c).signals_connected_
        = (s.signals_connected_ || decide (c = Call.AcceptConnection))
    ∧ ∀ w ∈ NetworkRemote.wiring,
        (NetworkRemote.step s c).connections.count w =
          s.connections.count w
            + (if c = Call.AcceptConnection ∧ s.signals_connected_ = false then 1 else 0) := by
  cases c with
  | StartServer q b4 b6 =>
    refine ⟨by simp [NetworkRemote.step, (StartServer_frame q b4 b6 s).2.1], ?_⟩
    intro w hw
    obtain ⟨-, -, h1, h2, -⟩ := count_wiring w hw
    simp only [NetworkRemote.step, (StartServer_frame q b4 b6 s).2.2.2]
    split <;> simp [List.count_cons, Ne.symm h1, Ne.symm h2]
  | StopServer =>
    refine ⟨by simp [NetworkRemote.step, (StopServer_frame s).2.1], ?_⟩
    intro w _
    simp [NetworkRemote.step, (StopServer_frame s).2.2]
  | ReloadSettings q b4 b6 =>
    refine ⟨by simp [NetworkRemote.step, NetworkRemote.ReloadSettings,
      (StartServer_frame q b4 b6 _).2.1, (StopServer_frame s).2.1], ?_⟩
    intro w hw
    obtain ⟨-, -, h1, h2, -⟩ := count_wiring w hw
    simp only [NetworkRemote.step, NetworkRemote.ReloadSettings,
      (StartServer_frame q b4 b6 _).2.2.2, (StopServer_frame s).2.2]
    split <;> simp [List.count_cons, Ne.symm h1, Ne.symm h2]
  | AcceptConnection =>
    obtain ⟨ha, hb⟩ := AcceptConnection_connections s
    refine ⟨by simp [NetworkRemote.step, ha], ?_⟩
    intro w hw
    obtain ⟨h0, h1, -, -, -⟩ := count_wiring w hw
    have ht : List.count w
        (if (NetworkRemote.AcceptConnection s).clients_.length = s.clients_.length then []
         else [Connection.client_Parse]) = 0 := by
      split <;> simp [List.count_cons, Ne.symm h1]
    simp only [NetworkRemote.step, hb, List.count_append, ht]
    cases hc : s.signals_connected_ <;> simp [h0]
  | inbound v6 sock =>
    cases v6 <;> simp [NetworkRemote.step]

theorem run_latch (cs : List Call) (s : NetworkRemote) :
    (NetworkRemote.run cs s).signals_connected_
        = (s.signals_connected_ || decide (Call.AcceptConnection ∈ cs))
    ∧ ∀ w ∈ NetworkRemote.wiring,
        (NetworkRemote.run cs s).connections.count w =
          s.connections.count w
            + (if Call.AcceptConnection ∈ cs ∧ s.signals_connected_ = false then 1 else 0) := by
  induction cs generalizing s with
  | nil => simp [NetworkRemote.run]
  | cons c cs ih =>
    have hrun : NetworkRemote.run (c :: cs) s = NetworkRemote.run cs (NetworkRemote.step s c) := rfl
    obtain ⟨h1, h2⟩ := step_latch s c
    obtain ⟨i1, i2⟩ := ih (NetworkRemote.step s c)
    rw [hrun]
    refine ⟨?_, ?_⟩
    · rw [i1, h1]
      by_cases hc : c = Call.AcceptConnection
      · simp [hc]
      · have hc2 : ¬ Call.AcceptConnection = c := fun h => hc h.symm
        simp [hc, hc2]
    · intro w hw
      rw [i2 w hw, h2 w hw, h1]
      by_cases hc : c = Call.AcceptConnection
      · cases hs : s.signals_connected_ <;> simp [hc]
      · have hc2 : ¬ Call.AcceptConnection = c := fun h => hc h.symm
        simp [hc, hc2]


/-- C8: starting from the constructed object (after `SetupServer`), along every
sequence of `StartServer`, `StopServer`, `ReloadSettings`, `AcceptConnection`
calls and inbound attempts, `signals_connected_` is false until the first
`AcceptConnection` call and true from then on, and each of the eight one-time
connections exists exactly once from that call on (and not at all before);
`AcceptConnection` always leaves the latch set, and once set no call resets it
or adds a wiring connection. -/
theorem wiring_performed_exactly_once (app : Bool) (cs : List Call) :
    (NetworkRemote.SetupServer (NetworkRemote.init app)).signals_connected_ = false
    ∧ (NetworkRemote.run cs
          (NetworkRemote.SetupServer (NetworkRemote.init app))).signals_connected_
        = decide (Call.AcceptConnection ∈ cs)
    ∧ (∀ w ∈ NetworkRemote.wiring,
        (NetworkRemote.run cs
            (NetworkRemote.SetupServer (NetworkRemote.init app))).connections.count w
          = if Call.AcceptConnection ∈ cs then 1 else 0)
    ∧ (∀ t : NetworkRemote, (NetworkRemote.AcceptConnection t).signals_connected_ = true)
    ∧ (∀ (t : NetworkRemote) (ds : List Call), t.signals_connected_ = true →
        (NetworkRemote.run ds t).signals_connected_ = true
        ∧ ∀ w ∈ NetworkRemote.wiring,
            (NetworkRemote.run ds t).connections.count w = t.connections.count w) := by
  refine ⟨rfl, ?_, ?_, fun t => (AcceptConnection_connections t).1, ?_⟩
  · rw [(run_latch cs _).1]
    simp [NetworkRemote.SetupServer, NetworkRemote.init]
  · intro w hw
    rw [(run_latch cs _).2 w hw]
    obtain ⟨-, -, -, -, h⟩ := count_wiring w hw
    simp [NetworkRemote.SetupServer, NetworkRemote.init, List.count_cons, Ne.symm h]
  · intro t ds ht
    refine ⟨by rw [(run_latch ds t).1, ht]; rfl, ?_⟩
    intro w hw
    rw [(run_latch ds t).2 w hw, ht]
    simp

theorem wiring_performed_exactly_once_witness :
    (NetworkRemote.run
        [Call.StartServer QSettings.enabled true true, Call.AcceptConnection,
         Call.ReloadSettings QSettings.enabled true true, Call.AcceptConnection]
        (NetworkRemote.SetupServer (NetworkRemote.init true))).connections.count
          Connection.VolumeChanged
      = (if Call.AcceptConnection ∈
            [Call.StartServer QSettings.enabled true true, Call.AcceptConnection,
             Call.ReloadSettings QSettings.enabled true true, Call.AcceptConnection]
         then 1 else 0)
    ∧ (NetworkRemote.run [Call.StopServer, Call.AcceptConnection]
        NetworkRemote.ipv6Only).signals_connected_ = true :=
  ⟨(wiring_performed_exactly_once true
      [Call.StartServer QSettings.enabled true true, Call.AcceptConnection,
       Call.ReloadSettings QSettings.enabled true true, Call.AcceptConnection]).2.2.1
      Connection.VolumeChanged (by decide),
   ((wiring_performed_exactly_once true []).2.2.2.2 NetworkRemote.ipv6Only
      [Call.StopServer, Call.AcceptConnection] (by decide)).1⟩

/-! ## A disabled server -/

theorem step_traffic_idle (s : NetworkRemote) (c : Call) (hc : c.isTraffic = true)
    (h4 : s.server_.idle) (h6 : s.server_ipv6_.idle) (hcl : s.clients_ = []) :
    (NetworkRemote.step s c).server_.idle ∧ (NetworkRemote.step s c).server_ipv6_.idle
    ∧ (NetworkRemote.step s c).clients_ = [] := by
  cases c with
  | StartServer q b4 b6 => simp [Call.isTraffic] at hc
  | StopServer => simp [Call.isTraffic] at hc
  | ReloadSettings q b4 b6 => simp [Call.isTraffic] at hc
  | AcceptConnection =>
    obtain ⟨a1, a2, a3⟩ := AcceptConnection_ipv6 s h4.2
    simp only [NetworkRemote.step]
    rw [a1, a2, a3, h6.2]
    refine ⟨h4, ?_, hcl⟩
    simpa [QTcpServer.nextPendingConnection, h6.2] using h6
  | inbound v6 sock =>
    cases v6
    · simp only [NetworkRemote.step, QTcpServer.incomingConnection, h4.1]
      exact ⟨h4, h6, hcl⟩
    · simp only [NetworkRemote.step, QTcpServer.incomingConnection, h6.1]
      exact ⟨h4, h6, hcl⟩

theorem run_traffic_idle (cs : List Call) (s : NetworkRemote)
    (hcs : ∀ c ∈ cs, c.isTraffic = true)
    (h4 : s.server_.idle) (h6 : s.server_ipv6_.idle) (hcl : s.clients_ = []) :
    (NetworkRemote.run cs s).server_.idle ∧ (NetworkRemote.run cs s).server_ipv6_.idle
    ∧ (NetworkRemote.run cs s).clients_ = [] := by
  induction cs generalizing s with
  | nil => exact ⟨h4, h6, hcl⟩
  | cons c cs ih =>
    have hrun : NetworkRemote.run (c :: cs) s = NetworkRemote.run cs (NetworkRemote.step s c) := rfl
    obtain ⟨k4, k6, kcl⟩ := step_traffic_idle s c (hcs c (List.mem_cons_self c cs)) h4 h6 hcl
    rw [hrun]
    exact ih _ (fun d hd => hcs d (List.mem_cons_of_mem c hd)) k4 k6 kcl

/-- C5: when the stored `use_remote` is false (or absent), `StartServer` leaves
both listeners and the client set exactly as they were, so it opens no
listener; and if before the call no listener was listening or had a pending
connection and the client set was empty, then after it, along every sequence of
inbound attempts and `AcceptConnection` calls, no listener is listening and the
client set is empty. -/
theorem StartServer_disabled_opens_nothing (q : QSettings) (b4 b6 : Bool) (s : NetworkRemote)
    (hq : QSettings.valueToBool q.use_remote = false) :
    (NetworkRemote.StartServer q b4 b6 s).server_ = s.server_
    ∧ (NetworkRemote.StartServer q b4 b6 s).server_ipv6_ = s.server_ipv6_
    ∧ (NetworkRemote.StartServer q b4 b6 s).clients_ = s.clients_
    ∧ (s.server_.idle → s.server_ipv6_.idle → s.clients_ = [] →
        ∀ cs : List Call, (∀ c ∈ cs, c.isTraffic = true) →
          (NetworkRemote.run cs (NetworkRemote.StartServer q b4 b6 s)).server_.isListening
              = false
          ∧ (NetworkRemote.run cs
                (NetworkRemote.StartServer q b4 b6 s)).server_ipv6_.isListening = false
          ∧ (NetworkRemote.run cs (NetworkRemote.StartServer q b4 b6 s)).clients_ = []) := by
  have hq2 : q.use_remote.getD false = false := hq
  have e : (NetworkRemote.StartServer q b4 b6 s).server_ = s.server_
      ∧ (NetworkRemote.StartServer q b4 b6 s).server_ipv6_ = s.server_ipv6_
      ∧ (NetworkRemote.StartServer q b4 b6 s).clients_ = s.clients_ := by
    rw [StartServer_fields]
    cases ha : s.app_ <;> simp [hq2, ReadSettings_fields]
  refine ⟨e.1, e.2.1, e.2.2, ?_⟩
  intro h4 h6 hcl cs hcs
  obtain ⟨r4, r6, rcl⟩ := run_traffic_idle cs (NetworkRemote.StartServer q b4 b6 s) hcs
    (by rw [e.1]; exact h4) (by rw [e.2.1]; exact h6) (by rw [e.2.2]; exact hcl)
  exact ⟨r4.1, r6.1, rcl⟩

theorem StartServer_disabled_opens_nothing_witness :
    (NetworkRemote.run
        [Call.inbound false (QTcpSocket.connected (dotted 192 168 1 5)), Call.AcceptConnection,
         Call.inbound true (QTcpSocket.connected (QHostAddress.ipv6 1)), Call.AcceptConnection]
        (NetworkRemote.StartServer QSettings.disabled true true
          NetworkRemote.fresh)).server_.isListening = false
    ∧ (NetworkRemote.run
        [Call.inbound false (QTcpSocket.connected (dotted 192 168 1 5)), Call.AcceptConnection,
         Call.inbound true (QTcpSocket.connected (QHostAddress.ipv6 1)), Call.AcceptConnection]
        (NetworkRemote.StartServer QSettings.disabled true true
          NetworkRemote.fresh)).server_ipv6_.isListening = false
    ∧ (NetworkRemote.run
        [Call.inbound false (QTcpSocket.connected (dotted 192 168 1 5)), Call.AcceptConnection,
         Call.inbound true (QTcpSocket.connected (QHostAddress.ipv6 1)), Call.AcceptConnection]
        (NetworkRemote.StartServer QSettings.disabled true true
          NetworkRemote.fresh)).clients_ = [] :=
  (StartServer_disabled_opens_nothing QSettings.disabled true true NetworkRemote.fresh
      (by decide)).2.2.2 (by decide) (by decide) (by decide)
    [Call.inbound false (QTcpSocket.connected (dotted 192 168 1 5)), Call.AcceptConnection,
     Call.inbound true (QTcpSocket.connected (QHostAddress.ipv6 1)), Call.AcceptConnection]
    (by decide)

end Clementine
